import Mathlib

set_option maxRecDepth 8000

/-
Verification of the CSV-to-JSON converter (src/main.py) against its
specification.  The development shallowly embeds the program's data flow:

* `Frame` models the in-memory pandas DataFrame: a header (column names in
  order) and rows, each row carrying its index label (a natural number,
  pandas' RangeIndex label) together with its cell values.
* `readCsv` models `pd.read_csv` applied to a pre-split byte stream: it
  checks that every record has as many fields as the header and assigns the
  positional index labels 0..N-1.
* `recordsJson`, `splitJson`, `indexPairs` model
  `json.loads(df.to_json(orient=...))` for the three orientations; Python
  dict construction and `dict.update` are modelled by `dictOfPairs` and
  `dictUpdate` (later occurrence of a key wins, first position is kept).
* `sampleSelect` models `df.sample(n)`: the random draw is made explicit as
  a list of selected row positions, constrained by `validSel`.
* `iloc`, `chunkStarts`, `batches`, `chunkedIndexJson` model the chunked
  Index-orientation path of the source (lines 90-108 of src/main.py), and
  `indexResult` the dispatch between the chunked and the direct path.
* `dumps` models `json.dumps(value, indent=2)` on the artifact shapes the
  program produces; `b64EncodeBytes`/`b64DecodeChars` model base64 transport
  of the download payload, `get_download_link` the function of the same name,
  `renderOutput` the truncated-preview logic, `downloadName` the
  `uploaded_file.name.split('.')[0] + ".json"` filename computation and
  `runApp` the top-level try/except control flow.
-/

/-- Decimal digits of a natural number, least significant first, computed
with an explicit fuel argument so that the function reduces definitionally.
Fuel `n` is always enough for input `n`. -/
def natDigitsAux : Nat → Nat → List Nat
  | 0, _ => []
  | _ + 1, 0 => []
  | fuel + 1, n + 1 => (n + 1) % 10 :: natDigitsAux fuel ((n + 1) / 10)

/-- Decimal digits of `n`, least significant first (empty for 0). -/
def natDigits (n : Nat) : List Nat := natDigitsAux n n

/-- Model of Python `str` on a non-negative integer: the usual decimal
notation, used by pandas for the keys of `to_json(orient="index")`. -/
def pyStr (n : Nat) : String :=
  if n = 0 then "0" else String.mk ((natDigits n).reverse.map Nat.digitChar)

/-- Inverse of `Nat.digitChar` on decimal digits. -/
def charDigit (c : Char) : Nat := c.toNat - 48

/-- Evaluation of a decimal string back to a number (big-endian fold). -/
def strToNat (s : String) : Nat := s.data.foldl (fun acc c => acc * 10 + charDigit c) 0

theorem natDigitsAux_eq (fuel n : Nat) (h : n ≤ fuel) : natDigitsAux fuel n = Nat.digits 10 n := by
  induction fuel generalizing n with
  | zero => interval_cases n; simp [natDigitsAux]
  | succ f ih =>
    match n with
    | 0 => simp [natDigitsAux]
    | m + 1 =>
      rw [natDigitsAux, ih ((m + 1) / 10) (by omega),
        Nat.digits_def' (by norm_num : (1 : Nat) < 10) (Nat.succ_pos m)]

theorem natDigits_eq (n : Nat) : natDigits n = Nat.digits 10 n := natDigitsAux_eq n n le_rfl

theorem charDigit_digitChar : ∀ d : Nat, d < 10 → charDigit (Nat.digitChar d) = d := by decide

theorem foldl_congr_mem {β γ : Type} : ∀ (l : List γ) (f g : β → γ → β) (b : β),
    (∀ x ∈ l, ∀ acc, f acc x = g acc x) → l.foldl f b = l.foldl g b := by
  intro l
  induction l with
  | nil => intro f g b _; rfl
  | cons x t ih =>
    intro f g b h
    simp only [List.foldl_cons]
    rw [h x (by simp)]
    exact ih f g (g b x) (fun y hy acc => h y (by simp [hy]) acc)

theorem foldr_eq_ofDigits (l : List Nat) :
    l.foldr (fun d acc => acc * 10 + d) 0 = Nat.ofDigits 10 l := by
  induction l with
  | nil => simp [Nat.ofDigits_nil]
  | cons d t ih => simp [Nat.ofDigits_cons, ih]; ring

theorem strToNat_pyStr (n : Nat) : strToNat (pyStr n) = n := by
  by_cases h : n = 0
  · subst h; decide
  · unfold pyStr strToNat
    rw [if_neg h]
    show ((natDigits n).reverse.map Nat.digitChar).foldl (fun acc c => acc * 10 + charDigit c) 0 = n
    rw [List.foldl_map]
    rw [foldl_congr_mem _ _ (fun acc d => acc * 10 + d) 0 ?congr]
    case congr =>
      intro d hd acc
      have hd10 : d < 10 := by
        rw [natDigits_eq] at hd
        exact Nat.digits_lt_base (by norm_num) (List.mem_reverse.mp hd)
      rw [charDigit_digitChar d hd10]
    rw [List.foldl_reverse]
    have : (fun (x : Nat) (y : Nat) => y * 10 + x) = (fun d acc => acc * 10 + d) := rfl
    rw [this, foldr_eq_ofDigits, natDigits_eq, Nat.ofDigits_digits]

/-- Distinct naturals have distinct decimal strings, so pandas index labels
never collide as JSON keys. -/
theorem pyStr_injective : Function.Injective pyStr :=
  Function.LeftInverse.injective strToNat_pyStr

/-- Model of the in-memory table built by `pd.read_csv`: column names in
header order, and rows carrying their index label and their cell values. -/
structure Frame (α : Type) where
  columns : List String
  rows : List (Nat × List α)
deriving DecidableEq

/-- Model of `pd.read_csv` on a pre-tokenized stream (src/main.py lines
41-50): every record must have exactly as many fields as the header,
otherwise the parser raises; on success rows get index labels 0..N-1. -/
def readCsv {α : Type} (header : List String) (rawRows : List (List α)) :
    Except String (Frame α) :=
  if rawRows.all (fun r => r.length == header.length) then
    .ok ⟨header, rawRows.enum⟩
  else .error ("Error tokenizing data")

/-- Pairs produced by `df.to_json(orient="index")`: each row becomes the
pair of its index label rendered as a string and its column-to-value
row object (src/main.py lines 96 and 111). -/
def indexPairs {α : Type} (df : Frame α) : List (String × List (String × α)) :=
  df.rows.map (fun r => (pyStr r.1, df.columns.zip r.2))

/-- Python dict insertion: a repeated key keeps its original position and
takes the new value, a fresh key is appended. -/
def dictInsert {β : Type} (d : List (String × β)) (kv : String × β) : List (String × β) :=
  if kv.1 ∈ d.map Prod.fst then
    d.map (fun p => if p.1 = kv.1 then (p.1, kv.2) else p)
  else d ++ [kv]

/-- Python dict built from a pair sequence, as `json.loads` does for a JSON
object. -/
def dictOfPairs {β : Type} (ps : List (String × β)) : List (String × β) :=
  ps.foldl dictInsert []

/-- Python `d.update(other)` (src/main.py line 107). -/
def dictUpdate {β : Type} (d ps : List (String × β)) : List (String × β) :=
  ps.foldl dictInsert d

/-- Model of `json.loads(df.to_json(orient="index"))` (src/main.py line 111
for the direct path, line 97 per chunk). -/
def indexJson {α : Type} (df : Frame α) : List (String × List (String × α)) :=
  dictOfPairs (indexPairs df)

/-- Model of `json.loads(df.to_json(orient="records"))`: a list of
column-to-value row objects in row order. -/
def recordsJson {α : Type} (df : Frame α) : List (List (String × α)) :=
  df.rows.map (fun r => df.columns.zip r.2)

/-- The three keys of the `orient="split"` JSON object. -/
structure SplitOut (α : Type) where
  columns : List String
  index : List Nat
  data : List (List α)
deriving DecidableEq

/-- Model of `json.loads(df.to_json(orient="split"))`. -/
def splitJson {α : Type} (df : Frame α) : SplitOut α :=
  ⟨df.columns, df.rows.map Prod.fst, df.rows.map Prod.snd⟩

/-- Positional slice `df.iloc[a:b]` (src/main.py line 96). -/
def iloc {α : Type} (df : Frame α) (a b : Nat) : Frame α :=
  ⟨df.columns, (df.rows.drop a).take (b - a)⟩

/-- Start offsets of `range(0, len, csize)` (src/main.py line 95). -/
def chunkStarts (len csize : Nat) : List Nat :=
  (List.range ((len + csize - 1) / csize)).map (· * csize)

/-- The consecutive 1000-row slices taken by the chunked Index path. -/
def batches {α : Type} (df : Frame α) : List (Frame α) :=
  (chunkStarts df.rows.length 1000).map (fun i => iloc df i (i + 1000))

/-- The chunked Index conversion (src/main.py lines 90-108): convert each
1000-row slice on its own, then fold the partial dicts together with
`json_data.update(chunk)`. -/
def chunkedIndexJson {α : Type} (df : Frame α) : List (String × List (String × α)) :=
  ((batches df).map indexJson).foldl dictUpdate []

/-- The Index-orientation result as the program computes it: chunked for
more than 5000 rows, direct otherwise (src/main.py lines 90 and 109-111). -/
def indexResult {α : Type} (df : Frame α) : List (String × List (String × α)) :=
  if 5000 < df.rows.length then chunkedIndexJson df else indexJson df

/-- The radio-button choice of JSON structure. -/
inductive JsonOrient where
  | records
  | split
  | index
deriving DecidableEq

/-- The converted JSON artifact, one shape per orientation. -/
inductive JsonOut (α : Type) where
  | records (rs : List (List (String × α)))
  | split (s : SplitOut α)
  | index (m : List (String × List (String × α)))
deriving DecidableEq

/-- The conversion step of the program for a chosen orientation
(src/main.py lines 90-112). -/
def convert {α : Type} (df : Frame α) : JsonOrient → JsonOut α
  | .records => .records (recordsJson df)
  | .split => .split (splitJson df)
  | .index => .index (indexResult df)

/-- Model of `df.sample(n)` (src/main.py line 77): the random generator's
choice is exposed as the list `sel` of chosen row positions; the drawn rows
keep their labels and cells, and the header is unchanged. -/
def sampleSelect {α : Type} (df : Frame α) (sel : List Nat) : Frame α :=
  ⟨df.columns, sel.filterMap (fun i => df.rows[i]?)⟩

/-- The possible draws of `df.sample(k)`: `k` distinct in-range row
positions, in any order (pandas samples without replacement and does not
promise source order). -/
def validSel {α : Type} (df : Frame α) (sel : List Nat) (k : Nat) : Prop :=
  sel.Nodup ∧ sel.length = k ∧ ∀ i ∈ sel, i < df.rows.length

theorem indexPairs_keys {α : Type} (df : Frame α) :
    (indexPairs df).map Prod.fst = (df.rows.map Prod.fst).map pyStr := by
  simp [indexPairs, List.map_map, Function.comp]

theorem keysNodup_of_labels {α : Type} {df : Frame α}
    (h : (df.rows.map Prod.fst).Nodup) : ((indexPairs df).map Prod.fst).Nodup := by
  rw [indexPairs_keys]
  exact h.map pyStr_injective

theorem dictInsert_of_not_mem {β : Type} {d : List (String × β)} {kv : String × β}
    (h : kv.1 ∉ d.map Prod.fst) : dictInsert d kv = d ++ [kv] := by
  simp [dictInsert, h]

theorem dictUpdate_of_disjoint {β : Type} : ∀ (ps d : List (String × β)),
    (ps.map Prod.fst).Nodup → (∀ k ∈ ps.map Prod.fst, k ∉ d.map Prod.fst) →
    dictUpdate d ps = d ++ ps := by
  intro ps
  induction ps with
  | nil => intro d _ _; simp [dictUpdate]
  | cons kv t ih =>
    intro d hnd hdis
    show t.foldl dictInsert (dictInsert d kv) = d ++ kv :: t
    rw [dictInsert_of_not_mem (hdis kv.1 (by simp))]
    have hnd' : (t.map Prod.fst).Nodup := by
      simp only [List.map_cons, List.nodup_cons] at hnd
      exact hnd.2
    have hdis' : ∀ k ∈ t.map Prod.fst, k ∉ (d ++ [kv]).map Prod.fst := by
      intro k hk
      simp only [List.map_append, List.mem_append, List.map_cons, List.map_nil,
        List.mem_singleton, not_or]
      refine ⟨hdis k (by simp [hk]), ?_⟩
      simp only [List.map_cons, List.nodup_cons] at hnd
      intro hkeq
      exact hnd.1 (hkeq ▸ hk)
    have := ih (d ++ [kv]) hnd' hdis'
    rw [dictUpdate] at this
    rw [this, List.append_assoc]
    rfl

theorem dictOfPairs_of_nodup {β : Type} {ps : List (String × β)}
    (h : (ps.map Prod.fst).Nodup) : dictOfPairs ps = ps := by
  have := dictUpdate_of_disjoint ps [] h (by simp)
  rw [dictUpdate] at this
  rw [dictOfPairs, this]
  rfl

theorem indexJson_eq_indexPairs {α : Type} {df : Frame α}
    (h : (df.rows.map Prod.fst).Nodup) : indexJson df = indexPairs df :=
  dictOfPairs_of_nodup (keysNodup_of_labels h)

theorem foldl_dictUpdate_flatten {β : Type} : ∀ (L : List (List (String × β)))
    (acc : List (String × β)),
    ((acc ++ L.flatten).map Prod.fst).Nodup →
    L.foldl dictUpdate acc = acc ++ L.flatten := by
  intro L
  induction L with
  | nil => intro acc _; simp
  | cons ps t ih =>
    intro acc h
    rw [List.flatten_cons, ← List.append_assoc] at h
    have hap : ((acc ++ ps).map Prod.fst).Nodup :=
      ((List.sublist_append_left (acc ++ ps) t.flatten).map Prod.fst).nodup h
    have hndacc : (acc.map Prod.fst).Nodup ∧ (ps.map Prod.fst).Nodup ∧
        (acc.map Prod.fst).Disjoint (ps.map Prod.fst) := by
      rw [List.map_append] at hap
      exact List.nodup_append.mp hap
    show t.foldl dictUpdate (dictUpdate acc ps) = _
    rw [dictUpdate_of_disjoint ps acc hndacc.2.1
      (fun k hk => hndacc.2.2.symm hk)]
    rw [ih (acc ++ ps) h]
    rw [List.flatten_cons, List.append_assoc]

theorem range_chunks_flatten {γ : Type} : ∀ (k : Nat) (l : List γ), l.length ≤ k * 1000 →
    ((List.range k).map (fun j => (l.drop (j * 1000)).take 1000)).flatten = l := by
  intro k
  induction k with
  | zero =>
    intro l h
    have : l = [] := List.eq_nil_of_length_eq_zero (by omega)
    simp [this]
  | succ n ih =>
    intro l h
    rw [List.range_succ_eq_map, List.map_cons, List.map_map, List.flatten_cons]
    have hfun : ((fun j => (l.drop (j * 1000)).take 1000) ∘ Nat.succ) =
        (fun j => ((l.drop 1000).drop (j * 1000)).take 1000) := by
      funext j
      simp only [Function.comp]
      rw [List.drop_drop]
      have : Nat.succ j * 1000 = 1000 + j * 1000 := by omega
      rw [this]
    rw [hfun, ih (l.drop 1000) (by simp; omega)]
    simp

theorem batches_columns {α : Type} (df : Frame α) :
    ∀ b ∈ batches df, b.columns = df.columns := by
  intro b hb
  simp only [batches, List.mem_map] at hb
  obtain ⟨i, _, rfl⟩ := hb
  rfl

theorem batches_rows_sublist {α : Type} (df : Frame α) :
    ∀ b ∈ batches df, b.rows.Sublist df.rows := by
  intro b hb
  simp only [batches, List.mem_map] at hb
  obtain ⟨i, _, rfl⟩ := hb
  exact (List.take_sublist _ _).trans (List.drop_sublist _ _)

theorem batches_rows_flatten {α : Type} (df : Frame α) :
    ((batches df).map (fun b => b.rows)).flatten = df.rows := by
  have hmap : (batches df).map (fun b => b.rows) =
      (List.range ((df.rows.length + 999) / 1000)).map
        (fun j => (df.rows.drop (j * 1000)).take 1000) := by
    simp only [batches, chunkStarts, List.map_map]
    apply List.map_congr_left
    intro j _
    simp only [Function.comp, iloc]
    have : j * 1000 + 1000 - j * 1000 = 1000 := by omega
    rw [this]
  rw [hmap]
  exact range_chunks_flatten _ _ (by omega)

theorem batches_indexPairs_flatten {α : Type} (df : Frame α) :
    ((batches df).map indexPairs).flatten = indexPairs df := by
  have h1 : (batches df).map indexPairs =
      ((batches df).map (fun b => b.rows)).map
        (List.map (fun r => (pyStr r.1, df.columns.zip r.2))) := by
    rw [List.map_map]
    apply List.map_congr_left
    intro b hb
    simp only [Function.comp, indexPairs, batches_columns df b hb]
  rw [h1, ← List.map_flatten, batches_rows_flatten]
  rfl

theorem chunkedIndexJson_eq_indexPairs {α : Type} {df : Frame α}
    (hnd : (df.rows.map Prod.fst).Nodup) : chunkedIndexJson df = indexPairs df := by
  unfold chunkedIndexJson
  have hbatch : (batches df).map indexJson = (batches df).map indexPairs := by
    apply List.map_congr_left
    intro b hb
    exact indexJson_eq_indexPairs
      (((batches_rows_sublist df b hb).map Prod.fst).nodup hnd)
  rw [hbatch]
  have := foldl_dictUpdate_flatten ((batches df).map indexPairs) []
  rw [List.nil_append] at this
  rw [this (by rw [batches_indexPairs_flatten]; exact keysNodup_of_labels hnd)]
  rw [batches_indexPairs_flatten]

theorem indexResult_eq_indexPairs {α : Type} {df : Frame α}
    (hnd : (df.rows.map Prod.fst).Nodup) : indexResult df = indexPairs df := by
  unfold indexResult
  by_cases h : 5000 < df.rows.length
  · rw [if_pos h]; exact chunkedIndexJson_eq_indexPairs hnd
  · rw [if_neg h]; exact indexJson_eq_indexPairs hnd

theorem batch_key_lists_disjoint {α : Type} {df : Frame α}
    (hnd : (df.rows.map Prod.fst).Nodup) :
    List.Pairwise List.Disjoint ((batches df).map (fun b => (indexJson b).map Prod.fst)) := by
  have h1 : (batches df).map (fun b => (indexJson b).map Prod.fst) =
      (batches df).map (fun b => (indexPairs b).map Prod.fst) := by
    apply List.map_congr_left
    intro b hb
    rw [indexJson_eq_indexPairs (((batches_rows_sublist df b hb).map Prod.fst).nodup hnd)]
  have h2 : ((batches df).map (fun b => (indexPairs b).map Prod.fst)).flatten =
      (indexPairs df).map Prod.fst := by
    have : (batches df).map (fun b => (indexPairs b).map Prod.fst) =
        ((batches df).map indexPairs).map (List.map Prod.fst) := by
      rw [List.map_map]; rfl
    rw [this, ← List.map_flatten, batches_indexPairs_flatten]
  have hflat : (((batches df).map (fun b => (indexPairs b).map Prod.fst)).flatten).Nodup := by
    rw [h2]; exact keysNodup_of_labels hnd
  rw [h1]
  exact (List.nodup_flatten.mp hflat).2

theorem filterMap_getElem_length {γ : Type} : ∀ (sel : List Nat) (l : List γ),
    (∀ i ∈ sel, i < l.length) →
    (sel.filterMap (fun i => l[i]?)).length = sel.length := by
  intro sel
  induction sel with
  | nil => intro l _; rfl
  | cons i t ih =>
    intro l h
    have hi : i < l.length := h i (by simp)
    rw [List.filterMap_cons, List.getElem?_eq_getElem hi]
    simp only [List.length_cons]
    rw [ih l (fun j hj => h j (by simp [hj]))]

theorem filterMap_getElem_mem {γ : Type} {sel : List Nat} {l : List γ} {r : γ}
    (h : r ∈ sel.filterMap (fun i => l[i]?)) : r ∈ l := by
  rw [List.mem_filterMap] at h
  obtain ⟨i, _, hget⟩ := h
  exact List.getElem?_mem hget

theorem filterMap_getElem_range {γ : Type} : ∀ l : List γ,
    (List.range l.length).filterMap (fun i => l[i]?) = l := by
  intro l
  induction l with
  | nil => rfl
  | cons a t ih =>
    rw [List.length_cons, List.range_succ_eq_map, List.filterMap_cons, List.filterMap_map]
    have hfun : ((fun i => (a :: t)[i]?) ∘ Nat.succ) = (fun i => t[i]?) := by
      funext i
      simp
    rw [hfun]
    simp [ih]

theorem filterMap_getElem_subperm {γ : Type} {sel : List Nat} {l : List γ}
    (hnd : sel.Nodup) (hb : ∀ i ∈ sel, i < l.length) :
    (sel.filterMap (fun i => l[i]?)).Subperm l := by
  have hsub : sel.Subperm (List.range l.length) :=
    hnd.subperm (fun i hi => List.mem_range.mpr (hb i hi))
  obtain ⟨u, hperm, hsl⟩ := hsub
  refine ⟨u.filterMap (fun i => l[i]?), hperm.filterMap _, ?_⟩
  have := hsl.filterMap (fun i => l[i]?)
  rwa [filterMap_getElem_range] at this

theorem getElem?_zip_eq {γ δ : Type} : ∀ (l₁ : List γ) (l₂ : List δ) (j : Nat),
    (l₁.zip l₂)[j]? = l₁[j]?.bind (fun a => l₂[j]?.map (fun b => (a, b))) := by
  intro l₁
  induction l₁ with
  | nil => intro l₂ j; simp
  | cons a t ih =>
    intro l₂ j
    cases l₂ with
    | nil => simp
    | cons b t2 =>
      cases j with
      | zero => simp
      | succ n => simp [ih]

theorem readCsv_ok_inv {α : Type} {header : List String} {raws : List (List α)} {df : Frame α}
    (h : readCsv header raws = Except.ok df) :
    df.columns = header ∧ df.rows = raws.enum := by
  unfold readCsv at h
  split at h
  · injection h with h2
    rw [← h2]
    exact ⟨rfl, rfl⟩
  · exact Except.noConfusion h

/-- Witness table for C1: 5001 rows labelled 0..5000, one column. -/
def dfBig : Frame Nat := ⟨["a"], (List.range 5001).map (fun i => (i, [i]))⟩

/-- C1: for every table of more than 5000 rows with pairwise distinct index
labels (true of every table the program converts), the chunked Index
conversion equals the direct Index conversion, and the key sets contributed
by distinct batches are pairwise disjoint, so the dict merge loses no
entries. -/
theorem batched_index_matches_direct {α : Type} (df : Frame α)
    (_h5 : 5000 < df.rows.length) (hnd : (df.rows.map Prod.fst).Nodup) :
    chunkedIndexJson df = indexJson df ∧
    List.Pairwise List.Disjoint
      ((batches df).map (fun b => (indexJson b).map Prod.fst)) :=
  ⟨by rw [chunkedIndexJson_eq_indexPairs hnd, indexJson_eq_indexPairs hnd],
   batch_key_lists_disjoint hnd⟩

theorem batched_index_matches_direct_witness :
    5000 < dfBig.rows.length ∧ (dfBig.rows.map Prod.fst).Nodup ∧
    (chunkedIndexJson dfBig = indexJson dfBig ∧
     List.Pairwise List.Disjoint
       ((batches dfBig).map (fun b => (indexJson b).map Prod.fst))) := by
  have h5 : 5000 < dfBig.rows.length := by
    show 5000 < ((List.range 5001).map (fun i => (i, [i]))).length
    rw [List.length_map, List.length_range]
    norm_num
  have hnd : (dfBig.rows.map Prod.fst).Nodup := by
    show (((List.range 5001).map (fun i => (i, [i]))).map Prod.fst).Nodup
    rw [List.map_map]
    have : (Prod.fst ∘ fun i : Nat => (i, [i])) = id := rfl
    rw [this, List.map_id]
    exact List.nodup_range 5001
  exact ⟨h5, hnd, batched_index_matches_direct dfBig h5 hnd⟩

/-- Parsed table with two rows, used to exhibit the sampling counterexample
for C2. -/
def dfTwo : Frame Nat := ⟨["a"], [(0, [10]), (1, [11])]⟩

/-- C2 (counterexample): the sampled table consisting of just row 1 of a
two-row parsed table is a table the program can convert, yet its Index key
is "1", not the string "0" of the row's position inside the sampled table.
So the keys are not the row positions in the table being converted. -/
theorem index_keys_positional_counterexample :
    readCsv ["a"] [[10], [11]] = Except.ok dfTwo ∧
    validSel dfTwo [1] 1 ∧
    (indexResult (sampleSelect dfTwo [1])).map Prod.fst ≠
      (List.range (sampleSelect dfTwo [1]).rows.length).map pyStr := by
  refine ⟨rfl, ?_, by decide⟩
  unfold validSel
  refine ⟨by decide, rfl, by decide⟩

/-- C2 (amended): the Index mapping of a converted table with distinct
labels has exactly one key per row; each key is the string form of the
row's index label, i.e. of its position in the originally parsed table;
for the full parsed table the labels are 0..N-1, so there the keys are the
string forms of the positions in the converted table itself. -/
theorem index_keys_are_label_strings {α : Type} (df : Frame α)
    (hnd : (df.rows.map Prod.fst).Nodup) :
    (indexResult df).length = df.rows.length ∧
    (indexResult df).map Prod.fst = (df.rows.map Prod.fst).map pyStr ∧
    (∀ header : List String, ∀ raws : List (List α),
      readCsv header raws = Except.ok df →
      (indexResult df).map Prod.fst = (List.range df.rows.length).map pyStr) := by
  refine ⟨?_, ?_, ?_⟩
  · rw [indexResult_eq_indexPairs hnd]
    simp [indexPairs]
  · rw [indexResult_eq_indexPairs hnd]
    exact indexPairs_keys df
  · intro header raws hread
    obtain ⟨_, hr⟩ := readCsv_ok_inv hread
    rw [indexResult_eq_indexPairs hnd, indexPairs_keys, hr, List.enum_map_fst,
      List.enum_length]

theorem index_keys_are_label_strings_witness :
    (dfTwo.rows.map Prod.fst).Nodup ∧
    ((indexResult dfTwo).length = dfTwo.rows.length ∧
     (indexResult dfTwo).map Prod.fst = (dfTwo.rows.map Prod.fst).map pyStr ∧
     (∀ header : List String, ∀ raws : List (List Nat),
       readCsv header raws = Except.ok dfTwo →
       (indexResult dfTwo).map Prod.fst = (List.range dfTwo.rows.length).map pyStr)) := by
  have hnd : (dfTwo.rows.map Prod.fst).Nodup := by decide
  exact ⟨hnd, index_keys_are_label_strings dfTwo hnd⟩

/-- Witness table for C3: two rows, two columns. -/
def dfW3 : Frame Nat := ⟨["a", "b"], [(0, [1, 2]), (1, [3, 4])]⟩

/-- C3: the Records conversion of a table whose rows all have one value per
header column yields exactly one row object per row; each row object lists
exactly the header's column names, in header order, and pairs each column
with the corresponding cell of its row. -/
theorem records_shape {α : Type} (df : Frame α)
    (h : ∀ r ∈ df.rows, r.2.length = df.columns.length) :
    (recordsJson df).length = df.rows.length ∧
    ∀ i : Nat, ∀ rec : List (String × α), ∀ row : Nat × List α,
      (recordsJson df)[i]? = some rec → df.rows[i]? = some row →
      (rec.map Prod.fst = df.columns ∧ rec.length = df.columns.length ∧
       ∀ j : Nat, ∀ c : String, ∀ v : α, df.columns[j]? = some c →
         row.2[j]? = some v → rec[j]? = some (c, v)) := by
  constructor
  · simp [recordsJson]
  · intro i rec row hrec hrow
    have hmap : (recordsJson df)[i]? =
        (df.rows[i]?).map (fun r => df.columns.zip r.2) := by
      rw [recordsJson, List.getElem?_map]
    rw [hmap, hrow] at hrec
    have hrec2 : rec = df.columns.zip row.2 := (Option.some.inj hrec).symm
    have hlen : row.2.length = df.columns.length := h row (List.getElem?_mem hrow)
    subst hrec2
    refine ⟨List.map_fst_zip _ _ (by omega), ?_, ?_⟩
    · rw [List.length_zip]
      omega
    · intro j c v hc hv
      rw [getElem?_zip_eq, hc, hv]
      rfl

theorem records_shape_witness :
    (∀ r ∈ dfW3.rows, r.2.length = dfW3.columns.length) ∧
    ((recordsJson dfW3).length = dfW3.rows.length ∧
     ∀ i : Nat, ∀ rec : List (String × Nat), ∀ row : Nat × List Nat,
       (recordsJson dfW3)[i]? = some rec → dfW3.rows[i]? = some row →
       (rec.map Prod.fst = dfW3.columns ∧ rec.length = dfW3.columns.length ∧
        ∀ j : Nat, ∀ c : String, ∀ v : Nat, dfW3.columns[j]? = some c →
          row.2[j]? = some v → rec[j]? = some (c, v))) := by
  have h : ∀ r ∈ dfW3.rows, r.2.length = dfW3.columns.length := by decide
  exact ⟨h, records_shape dfW3 h⟩

/-- Witness table for C4. -/
def dfW4 : Frame Nat := ⟨["x", "y"], [(0, [5, 6]), (1, [7, 8]), (2, [9, 10])]⟩

/-- C4: the Split conversion yields the three-field object whose column
list is the header (length C), whose index list holds the row labels
(length N) and whose data list holds one value list per row (N of them,
each of length C), rows and columns in source order. -/
theorem split_shape {α : Type} (df : Frame α)
    (h : ∀ r ∈ df.rows, r.2.length = df.columns.length) :
    (splitJson df).columns = df.columns ∧
    (splitJson df).index = df.rows.map Prod.fst ∧
    (splitJson df).index.length = df.rows.length ∧
    (splitJson df).data.length = df.rows.length ∧
    (∀ d ∈ (splitJson df).data, d.length = df.columns.length) ∧
    (splitJson df).data = df.rows.map Prod.snd := by
  refine ⟨rfl, rfl, by simp [splitJson], by simp [splitJson], ?_, rfl⟩
  intro d hd
  simp only [splitJson, List.mem_map] at hd
  obtain ⟨r, hr, rfl⟩ := hd
  exact h r hr

theorem split_shape_witness :
    (∀ r ∈ dfW4.rows, r.2.length = dfW4.columns.length) ∧
    ((splitJson dfW4).columns = dfW4.columns ∧
     (splitJson dfW4).index = dfW4.rows.map Prod.fst ∧
     (splitJson dfW4).index.length = dfW4.rows.length ∧
     (splitJson dfW4).data.length = dfW4.rows.length ∧
     (∀ d ∈ (splitJson dfW4).data, d.length = dfW4.columns.length) ∧
     (splitJson dfW4).data = dfW4.rows.map Prod.snd) := by
  have h : ∀ r ∈ dfW4.rows, r.2.length = dfW4.columns.length := by decide
  exact ⟨h, split_shape dfW4 h⟩

/-- Witness table for C5: 100 rows. -/
def df100 : Frame Nat := ⟨["a"], (List.range 100).map (fun i => (i, [i]))⟩

/-- C5: any sample the program can draw with size k in the slider's range
has exactly k rows, every sampled row occurs in the source table, the
sample is a sub-permutation of the source rows (drawn without replacement,
no duplicate introduced), and the header is unchanged. -/
theorem sample_spec {α : Type} (df : Frame α) (sel : List Nat) (k : Nat)
    (_hk : 100 ≤ k ∧ k ≤ min 10000 df.rows.length) (hv : validSel df sel k) :
    (sampleSelect df sel).rows.length = k ∧
    (∀ r ∈ (sampleSelect df sel).rows, r ∈ df.rows) ∧
    (sampleSelect df sel).rows.Subperm df.rows ∧
    (sampleSelect df sel).columns = df.columns := by
  obtain ⟨hnd, hlen, hb⟩ := hv
  refine ⟨?_, ?_, ?_, rfl⟩
  · show (sel.filterMap (fun i => df.rows[i]?)).length = k
    rw [filterMap_getElem_length sel df.rows hb, hlen]
  · intro r hr
    exact filterMap_getElem_mem hr
  · exact filterMap_getElem_subperm hnd hb

theorem sample_spec_witness :
    (100 ≤ 100 ∧ 100 ≤ min 10000 df100.rows.length) ∧
    validSel df100 (List.range 100) 100 ∧
    ((sampleSelect df100 (List.range 100)).rows.length = 100 ∧
     (∀ r ∈ (sampleSelect df100 (List.range 100)).rows, r ∈ df100.rows) ∧
     (sampleSelect df100 (List.range 100)).rows.Subperm df100.rows ∧
     (sampleSelect df100 (List.range 100)).columns = df100.columns) := by
  have hlen : df100.rows.length = 100 := by
    show ((List.range 100).map (fun i => (i, [i]))).length = 100
    rw [List.length_map, List.length_range]
  have hk : 100 ≤ 100 ∧ 100 ≤ min 10000 df100.rows.length := by
    refine ⟨le_rfl, ?_⟩
    rw [hlen]
    norm_num
  have hv : validSel df100 (List.range 100) 100 := by
    unfold validSel
    refine ⟨List.nodup_range 100, List.length_range 100, ?_⟩
    intro i hi
    rw [hlen]
    exact List.mem_range.mp hi
  exact ⟨hk, hv, sample_spec df100 (List.range 100) 100 hk hv⟩

theorem sample_labels {α : Type} : ∀ (sel : List Nat) (raws : List (List α)),
    (∀ i ∈ sel, i < raws.length) →
    (sel.filterMap (fun i => raws.enum[i]?)).map Prod.fst = sel := by
  intro sel
  induction sel with
  | nil => intro raws _; rfl
  | cons i t ih =>
    intro raws h
    have hi : i < raws.length := h i (by simp)
    rw [List.filterMap_cons, List.getElem?_enum, List.getElem?_eq_getElem hi]
    show ((i, raws[i]) :: t.filterMap (fun j => raws.enum[j]?)).map Prod.fst = i :: t
    rw [List.map_cons, ih raws (fun j hj => h j (by simp [hj]))]

/-- Parsed three-row table for the C10 witness. -/
def dfThree : Frame Nat := ⟨["a"], [(0, [1]), (1, [2]), (2, [3])]⟩

/-- C10: converting a sampled table with the Index variant keys each sampled
row by the string form of its position in the originally parsed table (the
sample keeps the source's index labels): the key list is exactly the list
of selected source positions rendered as strings, it has k entries, all
keys lie in the set of strings "0".."N-1" of source positions, and no key
repeats. -/
theorem sampled_index_keys {α : Type} (header : List String) (raws : List (List α))
    (df : Frame α) (sel : List Nat) (k : Nat)
    (hread : readCsv header raws = Except.ok df) (hv : validSel df sel k) :
    (indexResult (sampleSelect df sel)).map Prod.fst = sel.map pyStr ∧
    (indexResult (sampleSelect df sel)).length = k ∧
    (∀ key ∈ (indexResult (sampleSelect df sel)).map Prod.fst,
      key ∈ (List.range raws.length).map pyStr) ∧
    ((indexResult (sampleSelect df sel)).map Prod.fst).Nodup := by
  obtain ⟨_, hr⟩ := readCsv_ok_inv hread
  obtain ⟨hnd, hlen, hb⟩ := hv
  have hb' : ∀ i ∈ sel, i < raws.length := by
    intro i hi
    have := hb i hi
    rwa [hr, List.enum_length] at this
  have hlab : (sampleSelect df sel).rows.map Prod.fst = sel := by
    show (sel.filterMap (fun i => df.rows[i]?)).map Prod.fst = sel
    rw [hr]
    exact sample_labels sel raws hb'
  have hsnd : ((sampleSelect df sel).rows.map Prod.fst).Nodup := by
    rw [hlab]; exact hnd
  have hkeys : (indexResult (sampleSelect df sel)).map Prod.fst = sel.map pyStr := by
    rw [indexResult_eq_indexPairs hsnd, indexPairs_keys, hlab]
  refine ⟨hkeys, ?_, ?_, ?_⟩
  · rw [indexResult_eq_indexPairs hsnd]
    show ((sampleSelect df sel).rows.map _).length = k
    rw [List.length_map]
    show (sel.filterMap (fun i => df.rows[i]?)).length = k
    rw [filterMap_getElem_length sel df.rows hb, hlen]
  · intro key hkey
    rw [hkeys, List.mem_map] at hkey
    obtain ⟨i, hi, rfl⟩ := hkey
    exact List.mem_map.mpr ⟨i, List.mem_range.mpr (hb' i hi), rfl⟩
  · rw [hkeys]
    exact hnd.map pyStr_injective

theorem sampled_index_keys_witness :
    readCsv ["a"] [[1], [2], [3]] = Except.ok dfThree ∧
    validSel dfThree [2, 0] 2 ∧
    ((indexResult (sampleSelect dfThree [2, 0])).map Prod.fst = [2, 0].map pyStr ∧
     (indexResult (sampleSelect dfThree [2, 0])).length = 2 ∧
     (∀ key ∈ (indexResult (sampleSelect dfThree [2, 0])).map Prod.fst,
       key ∈ (List.range ([[1], [2], [3]] : List (List Nat)).length).map pyStr) ∧
     ((indexResult (sampleSelect dfThree [2, 0])).map Prod.fst).Nodup) := by
  have hread : readCsv ["a"] [[1], [2], [3]] = Except.ok dfThree := rfl
  have hv : validSel dfThree [2, 0] 2 := by
    unfold validSel
    exact ⟨by decide, rfl, by decide⟩
  exact ⟨hread, hv, sampled_index_keys ["a"] [[1], [2], [3]] dfThree [2, 0] 2 hread hv⟩

/-- Scalar cell values of a parsed CSV table: strings, integers, booleans
and nulls, the JSON-representable scalars pandas produces here. -/
inductive Cell where
  | str (s : String)
  | num (n : Int)
  | bool (b : Bool)
  | null
deriving DecidableEq

/-- Indentation of `n` spaces. -/
def indentStr (n : Nat) : String := String.mk (List.replicate n ' ')

/-- JSON string escaping for one character (quote, backslash and the common
control characters; other characters pass through). -/
def jsonEscapeChar (c : Char) : List Char :=
  if c = '"' then ['\\', '"']
  else if c = '\\' then ['\\', '\\']
  else if c = '\n' then ['\\', 'n']
  else if c = '\t' then ['\\', 't']
  else if c = '\r' then ['\\', 'r']
  else [c]

/-- A JSON string literal with surrounding quotes. -/
def jsonQuote (s : String) : String :=
  String.mk (('"' :: s.data.flatMap jsonEscapeChar) ++ ['"'])

/-- Python decimal notation for an integer. -/
def intStr (n : Int) : String :=
  if n < 0 then "-" ++ pyStr n.natAbs else pyStr n.toNat

/-- Serialization of one scalar cell, as `json.dumps` writes it. -/
def dumpsCell : Cell → String
  | .str s => jsonQuote s
  | .num n => intStr n
  | .bool b => if b then "true" else "false"
  | .null => "null"

/-- Items of an indented JSON container joined by ",\n", each prefixed by
its indentation. -/
def joinIndented (pad : String) (items : List String) : String :=
  String.intercalate (",\n") (items.map (fun it => pad ++ it))

/-- An indented JSON array as `json.dumps(..., indent=2)` lays it out:
opening bracket, one item per line indented two spaces deeper, closing
bracket back at the enclosing indentation. -/
def dumpsArr (ind : Nat) (items : List String) : String :=
  if items.isEmpty then "[]"
  else "[\n" ++ joinIndented (indentStr (ind + 2)) items ++ "\n" ++ indentStr ind ++ "]"

/-- An indented JSON object with the analogous layout; the key separator is
": " as with json.dumps' default separators under indent. -/
def dumpsObj (ind : Nat) (kvs : List (String × String)) : String :=
  if kvs.isEmpty then "\x7b\x7d"
  else "\x7b\n" ++
    joinIndented (indentStr (ind + 2)) (kvs.map (fun kv => jsonQuote kv.1 ++ ": " ++ kv.2)) ++
    "\n" ++ indentStr ind ++ "\x7d"

/-- A row object (column name to cell) serialized at indentation `ind`. -/
def dumpsRowObj (ind : Nat) (row : List (String × Cell)) : String :=
  dumpsObj ind (row.map (fun p => (p.1, dumpsCell p.2)))

/-- Model of `json.dumps(json_data, indent=2)` (src/main.py lines 10 and
123) on the three artifact shapes the program produces. -/
def dumps : JsonOut Cell → String
  | .records rs => dumpsArr 0 (rs.map (dumpsRowObj 2))
  | .split s => dumpsObj 0
      [("columns", dumpsArr 2 (s.columns.map jsonQuote)),
       ("index", dumpsArr 2 (s.index.map pyStr)),
       ("data", dumpsArr 2 (s.data.map (fun r => dumpsArr 4 (r.map dumpsCell))))]
  | .index m => dumpsObj 0 (m.map (fun p => (p.1, dumpsRowObj 2 p.2)))

/-- The base64 alphabet in index order. -/
def b64Alphabet : List Char :=
  "ABCDEFGHIJKLMNOPQRSTUVWXYZabcdefghijklmnopqrstuvwxyz0123456789+/".data

/-- Character of sextet `n`. -/
def b64Char (n : Nat) : Char := b64Alphabet.getD n '='

/-- Index of an alphabet character, none for a character outside the
alphabet. -/
def b64Idx (c : Char) : Option Nat := b64Alphabet.findIdx? (fun a => a == c)

/-- RFC 4648 base64 encoding of a byte sequence, as Python's
`base64.b64encode` computes it (src/main.py line 11). -/
def b64EncodeBytes : List Nat → List Char
  | [] => []
  | [a] => [b64Char (a / 4), b64Char (a % 4 * 16), '=', '=']
  | [a, b] => [b64Char (a / 4), b64Char (a % 4 * 16 + b / 16), b64Char (b % 16 * 4), '=']
  | a :: b :: c :: rest =>
      b64Char (a / 4) :: b64Char (a % 4 * 16 + b / 16) :: b64Char (b % 16 * 4 + c / 64) ::
        b64Char (c % 64) :: b64EncodeBytes rest

/-- Base64 decoding, as the browser performs on the data URI: four
characters at a time, with the two padded final-block forms. -/
def b64DecodeChars : List Char → Option (List Nat)
  | [] => some []
  | c1 :: c2 :: c3 :: c4 :: rest =>
    match b64Idx c1, b64Idx c2 with
    | some s1, some s2 =>
      if c3 = '=' ∧ c4 = '=' ∧ rest = [] then some [s1 * 4 + s2 / 16]
      else if c4 = '=' ∧ rest = [] then
        match b64Idx c3 with
        | some s3 => some [s1 * 4 + s2 / 16, s2 % 16 * 16 + s3 / 4]
        | none => none
      else
        match b64Idx c3, b64Idx c4, b64DecodeChars rest with
        | some s3, some s4, some bs =>
            some ((s1 * 4 + s2 / 16) :: (s2 % 16 * 16 + s3 / 4) :: (s3 % 4 * 64 + s4) :: bs)
        | _, _, _ => none
    | _, _ => none
  | _ => none

/-- Bytes of a string under the program's ASCII regime (json.dumps escapes
non-ASCII by default, so every serialized character is one byte). -/
def strBytes (s : String) : List Nat := s.data.map Char.toNat

/-- A string rebuilt from bytes. -/
def bytesStr (bs : List Nat) : String := String.mk (bs.map Char.ofNat)

/-- Model of `base64.b64encode(json_str.encode()).decode()`
(src/main.py line 11). -/
def b64EncodeStr (s : String) : String := String.mk (b64EncodeBytes (strBytes s))

/-- Base64 decoding back to text, as downloading the data URI does. -/
def b64DecodeStr (s : String) : Option String := (b64DecodeChars s.data).map bytesStr

/-- The data of the download anchor: the base64 payload embedded in the
href and the filename of the download attribute. -/
structure DownloadLink where
  payload : String
  filename : String
deriving DecidableEq

/-- Model of `get_download_link` (src/main.py lines 8-13): serialize the
artifact with indent 2, base64-encode it and embed it with the chosen
filename. -/
def get_download_link (json_data : JsonOut Cell) (filename : String) : DownloadLink :=
  let json_str := dumps json_data
  { payload := b64EncodeStr json_str, filename := filename }

/-- The serialized text computed at the display site
(`json_str = json.dumps(json_data, indent=2)`, src/main.py line 123). -/
def displayJsonStr (json_data : JsonOut Cell) : String := dumps json_data

/-- What the output panel shows: either the truncated code preview or the
interactive viewer of the whole artifact. -/
inductive Shown where
  | truncatedCode (text : String)
  | jsonViewer (v : JsonOut Cell)
deriving DecidableEq

/-- Model of the preview logic (src/main.py lines 123-131): over 500000
characters the panel shows the first 500000 characters plus the truncation
marker, otherwise the full artifact. -/
def renderOutput (json_data : JsonOut Cell) : Shown :=
  let json_str := displayJsonStr json_data
  if 500000 < json_str.length then
    .truncatedCode (json_str.take 500000 ++ "\n... (truncated)")
  else .jsonViewer json_data

/-- Python `s.split('.')` on a character list: maximal runs between dots;
always at least one (possibly empty) segment. -/
def splitDot : List Char → List (List Char)
  | [] => [[]]
  | c :: cs =>
    if c = '.' then [] :: splitDot cs
    else
      match splitDot cs with
      | [] => [[c]]
      | t :: ts => (c :: t) :: ts

/-- Model of the download filename computation
`uploaded_file.name.split('.')[0] + ".json"` (src/main.py line 133). -/
def downloadName (uploadedName : String) : String :=
  String.mk ((splitDot uploadedName.data).headD []) ++ ".json"

/-- The static remediation hint printed under every error
(src/main.py line 137). -/
def staticHint : String := "Please ensure your CSV file is properly formatted."

/-- Outcome of one conversion run: either the caught-exception branch with
its two messages, or the artifact panel plus download link. -/
inductive RunOutcome where
  | failure (msg : String) (hint : String)
  | success (shown : Shown) (link : DownloadLink)
deriving DecidableEq

/-- The conversion step as a fallible computation; in this model of the
scalar cells the serializer never raises, so it always succeeds. -/
def convertE (df : Frame Cell) (o : JsonOrient) : Except String (JsonOut Cell) :=
  .ok (convert df o)

/-- The optional sampling step
(`df if sample_size is None else df.sample(sample_size)`,
src/main.py line 77). -/
def applySample {α : Type} (df : Frame α) : Option (List Nat) → Frame α
  | none => df
  | some sel => sampleSelect df sel

/-- The first exception raised during ingestion or conversion, if any. -/
def pipelineError (header : List String) (rawRows : List (List Cell)) (o : JsonOrient)
    (sampleSel : Option (List Nat)) : Option String :=
  match readCsv header rawRows with
  | .error e => some e
  | .ok df =>
    match convertE (applySample df sampleSel) o with
    | .error e => some e
    | .ok _ => none

/-- Model of the whole guarded block (src/main.py lines 40-137): parse,
optionally sample, convert, render and link; any exception is caught at the
top level and becomes the single error message plus the static hint. -/
def runApp (header : List String) (rawRows : List (List Cell)) (o : JsonOrient)
    (sampleSel : Option (List Nat)) (uploadedName : String) : RunOutcome :=
  match readCsv header rawRows with
  | .error e => .failure ("Error: " ++ e) staticHint
  | .ok df =>
    match convertE (applySample df sampleSel) o with
    | .error e => .failure ("Error: " ++ e) staticHint
    | .ok jsonData =>
        .success (renderOutput jsonData)
          (get_download_link jsonData (downloadName uploadedName))

/-- The on-screen JSON output of a run, if any. -/
def RunOutcome.shownOutput : RunOutcome → Option Shown
  | .failure _ _ => none
  | .success s _ => some s

/-- The download link of a run, if any. -/
def RunOutcome.downloadLink : RunOutcome → Option DownloadLink
  | .failure _ _ => none
  | .success _ l => some l

theorem b64Idx_b64Char : ∀ s : Nat, s < 64 → b64Idx (b64Char s) = some s := by decide

theorem b64Char_ne_pad : ∀ s : Nat, s < 64 → b64Char s ≠ '=' := by decide

theorem b64_roundtrip : ∀ bytes : List Nat, (∀ x ∈ bytes, x < 256) →
    b64DecodeChars (b64EncodeBytes bytes) = some bytes := by
  intro bytes
  induction bytes using b64EncodeBytes.induct with
  | case1 => intro _; rfl
  | case2 a =>
    intro h
    have ha : a < 256 := h a (by simp)
    have e1 : b64Idx (b64Char (a / 4)) = some (a / 4) := b64Idx_b64Char _ (by omega)
    have e2 : b64Idx (b64Char (a % 4 * 16)) = some (a % 4 * 16) := b64Idx_b64Char _ (by omega)
    simp only [b64EncodeBytes, b64DecodeChars, e1, e2]
    simp
    omega
  | case3 a b =>
    intro h
    have ha : a < 256 := h a (by simp)
    have hb : b < 256 := h b (by simp)
    have e1 : b64Idx (b64Char (a / 4)) = some (a / 4) := b64Idx_b64Char _ (by omega)
    have e2 : b64Idx (b64Char (a % 4 * 16 + b / 16)) = some (a % 4 * 16 + b / 16) :=
      b64Idx_b64Char _ (by omega)
    have e3 : b64Idx (b64Char (b % 16 * 4)) = some (b % 16 * 4) := b64Idx_b64Char _ (by omega)
    have ne3 : b64Char (b % 16 * 4) ≠ '=' := b64Char_ne_pad _ (by omega)
    simp only [b64EncodeBytes, b64DecodeChars, e1, e2, e3]
    simp [ne3]
    omega
  | case4 a b c rest ih =>
    intro h
    have ha : a < 256 := h a (by simp)
    have hb : b < 256 := h b (by simp)
    have hc : c < 256 := h c (by simp)
    have hrest := ih (fun x hx => h x (by simp [hx]))
    have e1 : b64Idx (b64Char (a / 4)) = some (a / 4) := b64Idx_b64Char _ (by omega)
    have e2 : b64Idx (b64Char (a % 4 * 16 + b / 16)) = some (a % 4 * 16 + b / 16) :=
      b64Idx_b64Char _ (by omega)
    have e3 : b64Idx (b64Char (b % 16 * 4 + c / 64)) = some (b % 16 * 4 + c / 64) :=
      b64Idx_b64Char _ (by omega)
    have e4 : b64Idx (b64Char (c % 64)) = some (c % 64) := b64Idx_b64Char _ (by omega)
    have ne3 : b64Char (b % 16 * 4 + c / 64) ≠ '=' := b64Char_ne_pad _ (by omega)
    have ne4 : b64Char (c % 64) ≠ '=' := b64Char_ne_pad _ (by omega)
    simp only [b64EncodeBytes, b64DecodeChars, e1, e2, e3, e4]
    simp [ne3, ne4, hrest]
    omega

theorem b64Str_roundtrip (s : String) (h : ∀ c ∈ s.data, c.toNat < 128) :
    b64DecodeStr (b64EncodeStr s) = some s := by
  unfold b64DecodeStr b64EncodeStr
  have hb : ∀ x ∈ strBytes s, x < 256 := by
    intro x hx
    unfold strBytes at hx
    obtain ⟨c, hc, rfl⟩ := List.mem_map.mp hx
    exact lt_trans (h c hc) (by norm_num)
  show (b64DecodeChars (b64EncodeBytes (strBytes s))).map bytesStr = some s
  rw [b64_roundtrip (strBytes s) hb]
  show some (bytesStr (strBytes s)) = some s
  unfold bytesStr strBytes
  rw [List.map_map]
  have hid : (Char.ofNat ∘ Char.toNat) = id := by
    funext c
    simp [Function.comp, Char.ofNat_toNat]
  rw [hid, List.map_id]

/-- Witness artifact for C6. -/
def vW6 : JsonOut Cell := .records [[(("a"), Cell.num 1)]]

/-- C6: for every converted artifact whose serialization is ASCII (as
json.dumps guarantees), base64-decoding the payload embedded in the
download link restores exactly the indent-2 serialization computed at the
display site, and the link's payload is the encoding of that same
serialization, since both sites apply the same dump to the same value. -/
theorem download_roundtrip (v : JsonOut Cell) (fn : String)
    (h : ∀ c ∈ (dumps v).data, c.toNat < 128) :
    b64DecodeStr ((get_download_link v fn).payload) = some (displayJsonStr v) ∧
    (get_download_link v fn).payload = b64EncodeStr (displayJsonStr v) := by
  constructor
  · show b64DecodeStr (b64EncodeStr (dumps v)) = some (dumps v)
    exact b64Str_roundtrip (dumps v) h
  · rfl

theorem download_roundtrip_witness :
    (∀ c ∈ (dumps vW6).data, c.toNat < 128) ∧
    (b64DecodeStr ((get_download_link vW6 ("data.json")).payload) = some (displayJsonStr vW6) ∧
     (get_download_link vW6 ("data.json")).payload = b64EncodeStr (displayJsonStr vW6)) := by
  have h : ∀ c ∈ (dumps vW6).data, c.toNat < 128 := by decide
  exact ⟨h, download_roundtrip vW6 ("data.json") h⟩

/-- Witness artifact for C7. -/
def vW7 : JsonOut Cell := .index [(("0"), [(("a"), Cell.null)])]

/-- C7: when the serialized text exceeds 500000 characters the preview is
exactly the first 500000 characters followed by the truncation marker while
the download payload still decodes to the complete text; at or below the
threshold the full structure is shown. -/
theorem preview_truncation (v : JsonOut Cell) (fn : String)
    (h : ∀ c ∈ (dumps v).data, c.toNat < 128) :
    (500000 < (dumps v).length →
      renderOutput v = Shown.truncatedCode ((dumps v).take 500000 ++ "\n... (truncated)") ∧
      b64DecodeStr ((get_download_link v fn).payload) = some (dumps v)) ∧
    ((dumps v).length ≤ 500000 → renderOutput v = Shown.jsonViewer v) := by
  constructor
  · intro hlen
    constructor
    · simp only [renderOutput, displayJsonStr]
      rw [if_pos hlen]
    · show b64DecodeStr (b64EncodeStr (dumps v)) = some (dumps v)
      exact b64Str_roundtrip (dumps v) h
  · intro hlen
    simp only [renderOutput, displayJsonStr]
    rw [if_neg (by omega)]

theorem preview_truncation_witness :
    (∀ c ∈ (dumps vW7).data, c.toNat < 128) ∧
    ((500000 < (dumps vW7).length →
       renderOutput vW7 = Shown.truncatedCode ((dumps vW7).take 500000 ++ "\n... (truncated)") ∧
       b64DecodeStr ((get_download_link vW7 ("d.json")).payload) = some (dumps vW7)) ∧
     ((dumps vW7).length ≤ 500000 → renderOutput vW7 = Shown.jsonViewer vW7)) := by
  have h : ∀ c ∈ (dumps vW7).data, c.toNat < 128 := by decide
  exact ⟨h, preview_truncation vW7 ("d.json") h⟩

theorem splitDot_no_dot_append : ∀ (l rest : List Char), (∀ c ∈ l, c ≠ '.') →
    splitDot (l ++ '.' :: rest) = l :: splitDot rest := by
  intro l
  induction l with
  | nil =>
    intro rest _
    show splitDot ('.' :: rest) = [] :: splitDot rest
    simp [splitDot]
  | cons c t ih =>
    intro rest h
    have hc : c ≠ '.' := h c (by simp)
    show splitDot (c :: (t ++ '.' :: rest)) = (c :: t) :: splitDot rest
    simp only [splitDot]
    rw [if_neg hc, ih rest (fun d hd => h d (by simp [hd]))]

/-- C8 (counterexample): for the uploaded name "a.b.csv", whose base name
with the final ".csv" removed is "a.b", the program derives the download
name "a.json", not "a.b.json": the code keeps only the segment before the
first dot, not the name minus its final extension. -/
theorem download_filename_counterexample :
    downloadName ("a.b" ++ ".csv") = "a.json" ∧
    downloadName ("a.b" ++ ".csv") ≠ "a.b" ++ ".json" := by
  constructor
  · decide
  · decide

/-- C8 (amended): the download filename is the segment of the uploaded name
before the first dot, followed by ".json"; in particular for every base
name free of dots, base + ".csv" is mapped to base + ".json". -/
theorem download_filename_first_segment (base : String)
    (h : ∀ c ∈ base.data, c ≠ '.') :
    downloadName (base ++ (".csv")) = base ++ (".json") := by
  unfold downloadName
  have hdata : (base ++ (".csv")).data = base.data ++ '.' :: ['c', 's', 'v'] := by
    rw [String.data_append]
  rw [hdata, splitDot_no_dot_append base.data _ h]
  rfl

theorem download_filename_first_segment_witness :
    (∀ c ∈ ("report").data, c ≠ '.') ∧
    downloadName (("report") ++ (".csv")) = ("report") ++ (".json") := by
  have h : ∀ c ∈ ("report").data, c ≠ '.' := by decide
  exact ⟨h, download_filename_first_segment ("report") h⟩

/-- C9: whenever ingestion or conversion raises, the run ends in the single
failure outcome carrying the exception text and the static remediation
hint, and produces no on-screen JSON output and no download link. -/
theorem error_outcome (header : List String) (rawRows : List (List Cell)) (o : JsonOrient)
    (ss : Option (List Nat)) (nm : String) (e : String)
    (herr : pipelineError header rawRows o ss = some e) :
    runApp header rawRows o ss nm = RunOutcome.failure (("Error: ") ++ e) staticHint ∧
    (runApp header rawRows o ss nm).shownOutput = none ∧
    (runApp header rawRows o ss nm).downloadLink = none := by
  unfold pipelineError at herr
  unfold runApp
  cases hp : readCsv header rawRows with
  | error e2 =>
    rw [hp] at herr
    simp only [] at herr
    simp only [Option.some.injEq] at herr
    subst herr
    exact ⟨rfl, rfl, rfl⟩
  | ok df =>
    rw [hp] at herr
    simp [convertE] at herr

theorem error_outcome_witness :
    pipelineError ["a", "b"] [[Cell.null]] JsonOrient.records none =
      some ("Error tokenizing data") ∧
    (runApp ["a", "b"] [[Cell.null]] JsonOrient.records none ("x.csv") =
       RunOutcome.failure (("Error: ") ++ ("Error tokenizing data")) staticHint ∧
     (runApp ["a", "b"] [[Cell.null]] JsonOrient.records none ("x.csv")).shownOutput = none ∧
     (runApp ["a", "b"] [[Cell.null]] JsonOrient.records none ("x.csv")).downloadLink = none) := by
  have herr : pipelineError ["a", "b"] [[Cell.null]] JsonOrient.records none =
      some ("Error tokenizing data") := rfl
  exact ⟨herr, error_outcome ["a", "b"] [[Cell.null]] JsonOrient.records none ("x.csv")
    ("Error tokenizing data") herr⟩
